import Mathlib

/-!
Verification of the destiel_news_bot orchestration loop (src/main.rs `Run`
command) and its BBC news source adapter (src/news.rs), against the
natural-language specification.  All definitions below are shallow embeddings
translated from the Rust source; theorems settle the spec's claims about them.
-/

deriving instance DecidableEq for Except

namespace DestielBot

/-- Embeds `NewsStory` from src/news.rs lines 20-25: the normalized item a
source adapter yields.  `story_url` is the dedup identity (canonicalKey),
`headline` the display text. -/
structure NewsStory where
  id : String
  headline : String
  story_url : String
deriving DecidableEq, Repr

/-- Embeds the `NewsSource` enum from src/news.rs lines 7-13: a tagged variant
with a single `BBC` kind carrying its endpoint URL (modelled as a string). -/
inductive NewsSource where
  | BBC (url : String)
deriving DecidableEq, Repr

/-- Embeds `Rect` from src/image.rs lines 13-19. -/
structure Rect where
  x : Int
  y : Int
  width : Int
  height : Int
deriving DecidableEq, Repr

/-- Embeds `ImageGenConfig` from src/image.rs lines 6-11 (the template path is
modelled as a string). -/
structure ImageGenConfig where
  headline_bounds : Rect
  max_font_size : Int
  template : String
deriving DecidableEq, Repr

/-- Embeds `Config` from src/main.rs lines 16-20.  Its only fields are
`image_gen_cfg` and `news_sources`; in particular it carries no postprocess
rule list and no cycle-interval field. -/
structure Config where
  image_gen_cfg : ImageGenConfig
  news_sources : List NewsSource
deriving DecidableEq, Repr

/-- The inter-cycle sleep used by the `Run` loop, as a function of the loaded
configuration.  Embeds src/main.rs line 231:
`tokio::time::sleep(std::time::Duration::from_secs(30))` — the literal 30 is
hard-coded and does not consult the configuration. -/
def cycleSleepSecs (_cfg : Config) : Nat := 30

/-- A single fetch outcome, the result type of `request_news_source`
(src/news.rs line 88): `Result<Option<NewsStory>>`, with the miette error
report modelled as a string. -/
abbrev FetchResult := Except String (Option NewsStory)

/-- Embeds the result-collection stage of the cycle, src/main.rs lines
153-165: the `filter_map` over fetch results that keeps `Ok(Some(story))`
payloads, drops `Ok(None)`, and logs (`tracing::error!`) and drops `Err(e)`.
Returns the surviving stories in collection order, paired with the list of
logged fetch errors. -/
def collectStories : List FetchResult → List NewsStory × List String
  | [] => ([], [])
  | r :: rest =>
    let t := collectStories rest
    match r with
    | Except.ok (some s) => (s :: t.1, t.2)
    | Except.ok none => t
    | Except.error e => (t.1, e :: t.2)

/-- Embeds the dedup filter of src/main.rs lines 166-176: a stateful
`filter_map` over the cycle's stories that drops a story whose `story_url` is
already in `seen_news_urls` and otherwise inserts the url and keeps the story.
Returns the kept stories (in order) and the updated seen set (modelled as a
list of urls; membership is what matters). -/
def dedupFilter : List String → List NewsStory → List NewsStory × List String
  | seen, [] => ([], seen)
  | seen, s :: rest =>
    if s.story_url ∈ seen then
      dedupFilter seen rest
    else
      let r := dedupFilter (s.story_url :: seen) rest
      (s :: r.1, r.2)

/-- Embeds the publish loop of src/main.rs lines 186-228.  For each story in
order: `generate_image` (the renderer, abstracted as `render` on the story's
headline, producing an artifact of type `α`) is called with `?`, so a render
error propagates out immediately; then `create_post` (the publisher,
abstracted as `publish`) is awaited and its outcome is matched and logged —
an `Err` does not stop the loop.  The ok-result records, per story, the
rendered artifact and the logged publish outcome. -/
def publishAll (render : String → Except String α)
    (publish : NewsStory → α → Except String String) :
    List NewsStory → Except String (List (NewsStory × α × Except String String))
  | [] => Except.ok []
  | s :: rest =>
    match render s.headline with
    | Except.error e => Except.error e
    | Except.ok img =>
      match publishAll render publish rest with
      | Except.error e => Except.error e
      | Except.ok tail => Except.ok ((s, img, publish s img) :: tail)

/-- Embeds the `if !cur_stories.is_empty()` guard of src/main.rs line 177
around the publish loop. -/
def publishPhase (render : String → Except String α)
    (publish : NewsStory → α → Except String String) (fresh : List NewsStory) :
    Except String (List (NewsStory × α × Except String String)) :=
  if fresh.isEmpty then Except.ok [] else publishAll render publish fresh

/-- Everything one iteration of the `Run` loop produces: the logged fetch
errors, the outcome of the publish phase (`Except.error` when a render failure
propagated), and the seen set as it stands after the dedup filter (which runs
before any render or publish attempt). -/
structure CycleOutcome (α : Type) where
  fetchErrors : List String
  published : Except String (List (NewsStory × α × Except String String))
  seenAfter : List String
deriving DecidableEq

/-- One iteration of the `loop` in src/main.rs lines 145-232: collect the
fetch results, dedup against the seen set, then run the publish phase.
`results` are the fetch outcomes of this cycle in completion order. -/
def runCycle (render : String → Except String α)
    (publish : NewsStory → α → Except String String)
    (seen : List String) (results : List FetchResult) : CycleOutcome α :=
  let c := collectStories results
  let d := dedupFilter seen c.1
  ⟨c.2, publishPhase render publish d.1, d.2⟩

/-- `n` iterations of the `Run` loop starting at cycle index `i` with seen set
`seen`; `f j` gives cycle `j`'s fetch outcomes.  A render error propagates out
of `main` via `?` (src/main.rs line 188), terminating the process — modelled
as `Except.error`.  On success, returns the final seen set and the per-cycle
publish records. -/
def runCyclesFrom (render : String → Except String α)
    (publish : NewsStory → α → Except String String)
    (f : Nat → List FetchResult) :
    Nat → Nat → List String →
    Except String (List String × List (List (NewsStory × α × Except String String)))
  | _, 0, seen => Except.ok (seen, [])
  | i, n + 1, seen =>
    let c := runCycle render publish seen (f i)
    match c.published with
    | Except.error e => Except.error e
    | Except.ok pubs =>
      match runCyclesFrom render publish f (i + 1) n c.seenAfter with
      | Except.error e => Except.error e
      | Except.ok r => Except.ok (r.1, pubs :: r.2)

/-- The concurrency bound passed to `buffer_unordered` at src/main.rs line
152. -/
def fanoutLimit : Nat := 2

/-- A state of the bounded fetch fan-out driven by
`tokio_stream::iter(...).map(request_news_source).buffer_unordered(2)`
(src/main.rs lines 147-152): the sources not yet admitted (in list order),
the fetches currently in flight, and counts of started and completed fetch
attempts. -/
structure FanoutState (σ : Type) where
  queued : List σ
  inflight : List σ
  started : Nat
  completed : Nat
deriving DecidableEq, Repr

/-- The transition relation of `buffer_unordered k`: a queued source may be
admitted only while fewer than `k` fetches are in flight, and any in-flight
fetch may complete (completion order is arbitrary). -/
inductive FanoutStep (k : Nat) {σ : Type} : FanoutState σ → FanoutState σ → Prop
  | start (s : FanoutState σ) (x : σ) (q : List σ)
      (hq : s.queued = x :: q) (hk : s.inflight.length < k) :
      FanoutStep k s ⟨q, x :: s.inflight, s.started + 1, s.completed⟩
  | finish (s : FanoutState σ) (x : σ) (l₁ l₂ : List σ)
      (hin : s.inflight = l₁ ++ x :: l₂) :
      FanoutStep k s ⟨s.queued, l₁ ++ l₂, s.started, s.completed + 1⟩

/-- The initial fan-out state for a cycle: all configured sources queued,
nothing in flight, no attempts yet. -/
def fanoutInit {σ : Type} (sources : List σ) : FanoutState σ :=
  ⟨sources, [], 0, 0⟩

/-- The states the fan-out can reach during one cycle over `sources` with
concurrency limit `k`. -/
inductive FanoutReachable (k : Nat) {σ : Type} (sources : List σ) :
    FanoutState σ → Prop
  | init : FanoutReachable k sources (fanoutInit sources)
  | step {s t : FanoutState σ} : FanoutReachable k sources s →
      FanoutStep k s t → FanoutReachable k sources t

/-! ### BBC source adapter (src/news.rs) -/

/-- A JSON value, as seen by serde when deserializing the BBC API response. -/
inductive Json where
  | null : Json
  | bool (b : Bool) : Json
  | num (n : Int) : Json
  | str (s : String) : Json
  | arr (elems : List Json) : Json
  | obj (fields : List (String × Json)) : Json

/-- First value bound to `name` in a JSON object's field list. -/
def lookupField (fields : List (String × Json)) (name : String) : Option Json :=
  match fields with
  | [] => none
  | (k, v) :: rest => if k = name then some v else lookupField rest name

/-- Embeds `BBCApiResponseAsset` from src/news.rs lines 51-57: the camelCase
fields `assetId`, `assetUri`, `headline`. -/
structure BBCApiResponseAsset where
  asset_id : String
  asset_uri : String
  headline : String
deriving DecidableEq, Repr

/-- Embeds `BBCApiResponse` from src/news.rs lines 59-63: the `asset` field,
deserialized through `object_empty_as_none`. -/
structure BBCApiResponse where
  asset : Option BBCApiResponseAsset
deriving DecidableEq, Repr

/-- Deserializes `BBCApiResponseAsset` from a JSON value: an object whose
`assetId`, `assetUri` and `headline` fields are strings (unknown fields are
allowed, as serde permits by default). -/
def parseAsset (j : Json) : Option BBCApiResponseAsset :=
  match j with
  | Json.obj fs =>
    match lookupField fs "assetId", lookupField fs "assetUri",
        lookupField fs "headline" with
    | some (Json.str a), some (Json.str u), some (Json.str h) => some ⟨a, u, h⟩
    | _, _, _ => none
  | _ => none

/-- Embeds `object_empty_as_none` from src/news.rs lines 28-49: the untagged
`Aux` enum tries the asset type `T` first, then `Empty` (an object with no
fields, by `deny_unknown_fields`), then `Null`; `T` maps to `Some`, the other
two to `None`, and anything else is a deserialization error. -/
def object_empty_as_none (j : Json) : Except String (Option BBCApiResponseAsset) :=
  match parseAsset j with
  | some a => Except.ok (some a)
  | none =>
    match j with
    | Json.obj [] => Except.ok none
    | Json.null => Except.ok none
    | _ => Except.error "data did not match any variant of untagged enum Aux"

/-- Deserializes `BBCApiResponse` from a JSON value: an object with a
required `asset` field, run through `object_empty_as_none`. -/
def parseBBCApiResponse (j : Json) : Except String BBCApiResponse :=
  match j with
  | Json.obj fs =>
    match lookupField fs "asset" with
    | some aj =>
      match object_empty_as_none aj with
      | Except.ok a => Except.ok ⟨a⟩
      | Except.error e => Except.error e
    | none => Except.error "missing field asset"
  | _ => Except.error "invalid type: expected a map"

/-- Embeds the response handling of `request_news_source`, src/news.rs lines
96-103: given a successfully deserialized `BBCApiResponse`, a present asset
yields `Ok(Some(story))` with `id = "BBC_" ++ assetId`,
`story_url = "https://bbc.co.uk" ++ assetUri` and the headline unchanged,
while an absent asset yields `Ok(None)`. -/
def request_news_source (response : BBCApiResponse) : FetchResult :=
  match response.asset with
  | some asset =>
    Except.ok (some
      ⟨"BBC_" ++ asset.asset_id, asset.headline,
        "https://bbc.co.uk" ++ asset.asset_uri⟩)
  | none => Except.ok none

/-! ### Helper lemmas -/

theorem dedup_nil (seen : List String) : dedupFilter seen [] = ([], seen) := rfl

theorem dedup_cons_mem {seen : List String} {s : NewsStory}
    (h : s.story_url ∈ seen) (rest : List NewsStory) :
    dedupFilter seen (s :: rest) = dedupFilter seen rest := by
  simp [dedupFilter, h]

theorem dedup_cons_not_mem {seen : List String} {s : NewsStory}
    (h : s.story_url ∉ seen) (rest : List NewsStory) :
    dedupFilter seen (s :: rest) =
      ((s :: (dedupFilter (s.story_url :: seen) rest).1),
        (dedupFilter (s.story_url :: seen) rest).2) := by
  simp [dedupFilter, h]

theorem dedup_seen_mono :
    ∀ (l : List NewsStory) (seen : List String), seen ⊆ (dedupFilter seen l).2 := by
  intro l
  induction l with
  | nil => intro seen; simp [dedupFilter]
  | cons s rest ih =>
    intro seen
    by_cases h : s.story_url ∈ seen
    · rw [dedup_cons_mem h]
      exact ih seen
    · rw [dedup_cons_not_mem h]
      intro a ha
      exact ih (s.story_url :: seen) (List.mem_cons_of_mem _ ha)

theorem dedup_kept_sub :
    ∀ (l : List NewsStory) (seen : List String), (dedupFilter seen l).1 ⊆ l := by
  intro l
  induction l with
  | nil => intro seen; simp [dedupFilter]
  | cons s rest ih =>
    intro seen
    by_cases h : s.story_url ∈ seen
    · rw [dedup_cons_mem h]
      exact fun a ha => List.mem_cons_of_mem _ (ih seen ha)
    · rw [dedup_cons_not_mem h]
      intro a ha
      rcases List.mem_cons.mp ha with h1 | h2
      · exact h1 ▸ List.mem_cons_self _ _
      · exact List.mem_cons_of_mem _ (ih _ h2)

theorem dedup_kept_fresh :
    ∀ (l : List NewsStory) (seen : List String) (s : NewsStory),
      s ∈ (dedupFilter seen l).1 → s.story_url ∉ seen := by
  intro l
  induction l with
  | nil => intro seen s hs; simp [dedupFilter] at hs
  | cons t rest ih =>
    intro seen s hs
    by_cases h : t.story_url ∈ seen
    · rw [dedup_cons_mem h] at hs
      exact ih seen s hs
    · rw [dedup_cons_not_mem h] at hs
      rcases List.mem_cons.mp hs with h1 | h2
      · exact h1 ▸ h
      · intro hmem
        exact ih (t.story_url :: seen) s h2 (List.mem_cons_of_mem _ hmem)

theorem dedup_kept_url_in_after :
    ∀ (l : List NewsStory) (seen : List String) (s : NewsStory),
      s ∈ (dedupFilter seen l).1 → s.story_url ∈ (dedupFilter seen l).2 := by
  intro l
  induction l with
  | nil => intro seen s hs; simp [dedupFilter] at hs
  | cons t rest ih =>
    intro seen s hs
    by_cases h : t.story_url ∈ seen
    · rw [dedup_cons_mem h] at hs ⊢
      exact ih seen s hs
    · rw [dedup_cons_not_mem h] at hs ⊢
      rcases List.mem_cons.mp hs with h1 | h2
      · exact dedup_seen_mono rest (t.story_url :: seen)
          (h1 ▸ List.mem_cons_self _ _)
      · exact ih (t.story_url :: seen) s h2

theorem dedup_kept_nodup_urls :
    ∀ (l : List NewsStory) (seen : List String),
      ((dedupFilter seen l).1.map NewsStory.story_url).Nodup := by
  intro l
  induction l with
  | nil => intro seen; simp [dedupFilter]
  | cons t rest ih =>
    intro seen
    by_cases h : t.story_url ∈ seen
    · rw [dedup_cons_mem h]
      exact ih seen
    · rw [dedup_cons_not_mem h]
      simp only [List.map_cons, List.nodup_cons]
      refine ⟨?_, ih (t.story_url :: seen)⟩
      intro hmem
      rcases List.mem_map.mp hmem with ⟨s, hs, hurl⟩
      exact dedup_kept_fresh rest (t.story_url :: seen) s hs
        (hurl ▸ List.mem_cons_self _ _)

theorem collect_nil : collectStories [] = ([], []) := rfl

theorem collect_err (e : String) (rest : List FetchResult) :
    collectStories (Except.error e :: rest) =
      ((collectStories rest).1, e :: (collectStories rest).2) := rfl

theorem collect_ok_some (s : NewsStory) (rest : List FetchResult) :
    collectStories (Except.ok (some s) :: rest) =
      (s :: (collectStories rest).1, (collectStories rest).2) := rfl

theorem collect_ok_none (rest : List FetchResult) :
    collectStories (Except.ok none :: rest) = collectStories rest := rfl

theorem collect_all_err :
    ∀ rs : List FetchResult, (∀ r ∈ rs, ∃ e, r = Except.error e) →
      (collectStories rs).1 = [] := by
  intro rs
  induction rs with
  | nil => intro _; rfl
  | cons r rest ih =>
    intro h
    rcases h r (List.mem_cons_self _ _) with ⟨e, he⟩
    subst he
    rw [collect_err]
    exact ih fun r hr => h r (List.mem_cons_of_mem _ hr)

theorem publishAll_render_ok {α : Type} (render : String → Except String α)
    (publish : NewsStory → α → Except String String) (aOf : NewsStory → α) :
    ∀ stories : List NewsStory,
      (∀ s ∈ stories, render s.headline = Except.ok (aOf s)) →
      publishAll render publish stories =
        Except.ok (stories.map fun s => (s, aOf s, publish s (aOf s))) := by
  intro stories
  induction stories with
  | nil => intro _; rfl
  | cons s rest ih =>
    intro h
    have hs := h s (List.mem_cons_self _ _)
    have hrest := ih fun t ht => h t (List.mem_cons_of_mem _ ht)
    simp [publishAll, hs, hrest]

theorem publishAll_ok_stories {α : Type} {render : String → Except String α}
    {publish : NewsStory → α → Except String String} :
    ∀ {stories : List NewsStory}
      {l : List (NewsStory × α × Except String String)},
      publishAll render publish stories = Except.ok l →
      l.map (fun x => x.1) = stories := by
  intro stories
  induction stories with
  | nil =>
    intro l h
    simp [publishAll] at h
    simp [← h]
  | cons s rest ih =>
    intro l h
    simp only [publishAll] at h
    cases hr : render s.headline with
    | error e => rw [hr] at h; exact absurd h (by simp)
    | ok img =>
      rw [hr] at h
      cases ht : publishAll render publish rest with
      | error e => rw [ht] at h; exact absurd h (by simp)
      | ok tail =>
        rw [ht] at h
        cases h
        simpa using ih ht

theorem publishPhase_ok_stories {α : Type} {render : String → Except String α}
    {publish : NewsStory → α → Except String String} {fresh : List NewsStory}
    {l : List (NewsStory × α × Except String String)}
    (h : publishPhase render publish fresh = Except.ok l) :
    l.map (fun x => x.1) = fresh := by
  unfold publishPhase at h
  by_cases he : fresh.isEmpty
  · rw [if_pos he] at h
    cases h
    simp_all [List.isEmpty_iff]
  · rw [if_neg he] at h
    exact publishAll_ok_stories h

theorem publishAll_render_err {α : Type} (render : String → Except String α)
    (publish : NewsStory → α → Except String String) (s : NewsStory)
    (rest : List NewsStory) (e : String) (h : render s.headline = Except.error e) :
    publishAll render publish (s :: rest) = Except.error e := by
  simp [publishAll, h]

theorem fanout_inv {σ : Type} {k : Nat} {sources : List σ} {s : FanoutState σ}
    (h : FanoutReachable k sources s) :
    s.inflight.length ≤ k ∧ s.queued.length + s.started = sources.length ∧
      s.completed + s.inflight.length = s.started := by
  induction h with
  | init => simp [fanoutInit]
  | step hr hs ih =>
    obtain ⟨ih1, ih2, ih3⟩ := ih
    cases hs with
    | start x q hq hk =>
      have hql := congrArg List.length hq
      simp only [List.length_cons] at hql
      refine ⟨?_, ?_, ?_⟩ <;> simp only [List.length_cons] <;> omega
    | finish x l₁ l₂ hin =>
      have hil := congrArg List.length hin
      simp only [List.length_append, List.length_cons] at hil
      refine ⟨?_, ?_, ?_⟩ <;> simp only [List.length_append] <;> omega

theorem runCycle_seenAfter {α : Type} (render : String → Except String α)
    (publish : NewsStory → α → Except String String)
    (seen : List String) (results : List FetchResult) :
    (runCycle render publish seen results).seenAfter =
      (dedupFilter seen (collectStories results).1).2 := rfl

theorem runCyclesFrom_seen_mono {α : Type} {render : String → Except String α}
    {publish : NewsStory → α → Except String String} {f : Nat → List FetchResult} :
    ∀ (n i : Nat) (seen fin : List String)
      (pubs : List (List (NewsStory × α × Except String String))),
      runCyclesFrom render publish f i n seen = Except.ok (fin, pubs) →
      seen ⊆ fin := by
  intro n
  induction n with
  | zero =>
    intro i seen fin pubs h
    simp [runCyclesFrom] at h
    exact h.1 ▸ List.Subset.refl _
  | succ m ih =>
    intro i seen fin pubs h
    simp only [runCyclesFrom] at h
    cases hp : (runCycle render publish seen (f i)).published with
    | error e => rw [hp] at h; exact absurd h (by simp)
    | ok cur =>
      rw [hp] at h
      cases hrec : runCyclesFrom render publish f (i + 1) m
          (runCycle render publish seen (f i)).seenAfter with
      | error e => rw [hrec] at h; exact absurd h (by simp)
      | ok r =>
        rw [hrec] at h
        cases h
        refine List.Subset.trans ?_ (ih (i + 1) _ r.1 r.2 (by rw [hrec]))
        rw [runCycle_seenAfter]
        exact dedup_seen_mono _ _

theorem publishAll_ok_elim {α : Type} {render : String → Except String α}
    {publish : NewsStory → α → Except String String} :
    ∀ {stories : List NewsStory}
      {l : List (NewsStory × α × Except String String)},
      publishAll render publish stories = Except.ok l →
      ∀ x ∈ l, render x.1.headline = Except.ok x.2.1 ∧ x.2.2 = publish x.1 x.2.1 := by
  intro stories
  induction stories with
  | nil =>
    intro l h x hx
    simp [publishAll] at h
    subst h
    simp at hx
  | cons s rest ih =>
    intro l h x hx
    simp only [publishAll] at h
    cases hr : render s.headline with
    | error e => rw [hr] at h; exact absurd h (by simp)
    | ok img =>
      rw [hr] at h
      cases ht : publishAll render publish rest with
      | error e => rw [ht] at h; exact absurd h (by simp)
      | ok tail =>
        rw [ht] at h
        cases h
        rcases List.mem_cons.mp hx with h1 | h2
        · subst h1
          exact ⟨hr, rfl⟩
        · exact ih ht x h2

theorem publishPhase_ok_elim {α : Type} {render : String → Except String α}
    {publish : NewsStory → α → Except String String} {fresh : List NewsStory}
    {l : List (NewsStory × α × Except String String)}
    (h : publishPhase render publish fresh = Except.ok l) :
    ∀ x ∈ l, render x.1.headline = Except.ok x.2.1 ∧ x.2.2 = publish x.1 x.2.1 := by
  unfold publishPhase at h
  by_cases he : fresh.isEmpty
  · rw [if_pos he] at h
    cases h
    intro x hx
    simp at hx
  · rw [if_neg he] at h
    exact publishAll_ok_elim h

/-! ### Concrete sample data used in scenario proofs -/

def sampleStory1 : NewsStory := ⟨"id1", "h1", "u1"⟩

def sampleStory2 : NewsStory := ⟨"id2", "h2", "u2"⟩

def sampleStory3 : NewsStory := ⟨"id3", "h3", "u3"⟩

/-- A renderer that always succeeds, returning the text it was given as the
artifact (so the artifact records what the renderer received). -/
def okRender : String → Except String String := fun t => Except.ok t

/-- A publisher that always succeeds. -/
def okPublish : NewsStory → String → Except String String :=
  fun _ _ => Except.ok "post"

/-- A publisher that always fails. -/
def failPublish : NewsStory → String → Except String String :=
  fun _ _ => Except.error "publish failed"

/-- A renderer that fails exactly on the headline of `sampleStory1`. -/
def boomRender : String → Except String String :=
  fun t => if t = "h1" then Except.error "render failed" else Except.ok t

/-- Scenario A fetch results: two sources return `sampleStory1` (key u1) and
`sampleStory2` (key u2). -/
def cycleAfetch : List FetchResult :=
  [Except.ok (some sampleStory1), Except.ok (some sampleStory2)]

/-- Scenario C fetch results: source A fails with a network error, source B
returns `sampleStory3` (key u3). -/
def scenarioCfetch : List FetchResult :=
  [Except.error "network error", Except.ok (some sampleStory3)]

/-! ### Claims -/

/-- C1, counterexample.  The claim says a Renderer failure for one item is
logged and prevents neither the remaining items of the cycle nor the process
from continuing.  In the code (src/main.rs line 188) `generate_image` is
called with `?`, so on the concrete input below — two deduped stories, the
renderer failing on the first — the publish loop aborts with the render error
(the second story is never rendered or published), and the whole loop run
returns that error out of `main`, terminating the process. -/
theorem c1_counterexample :
    publishAll boomRender okPublish [sampleStory1, sampleStory2] =
      Except.error "render failed" ∧
    runCyclesFrom boomRender okPublish (fun _ => cycleAfetch) 0 1 [] =
      Except.error "render failed" := by
  exact ⟨rfl, rfl⟩

/-- C1, amended: a Publisher failure for one item is logged and does not
prevent the remaining items of the cycle — whenever the renderer succeeds on
every item, every item of the cycle's final list is processed in order and
each publish outcome (success or failure) is recorded; a Renderer failure,
however, propagates out of the publish loop via `?` and terminates the
process, skipping the remaining items. -/
theorem c1_publish_isolated_render_fatal :
    (∀ (α : Type) (render : String → Except String α)
        (publish : NewsStory → α → Except String String) (aOf : NewsStory → α)
        (stories : List NewsStory),
        (∀ s ∈ stories, render s.headline = Except.ok (aOf s)) →
        publishAll render publish stories =
          Except.ok (stories.map fun s => (s, aOf s, publish s (aOf s)))) ∧
    (∀ (α : Type) (render : String → Except String α)
        (publish : NewsStory → α → Except String String)
        (s : NewsStory) (rest : List NewsStory) (e : String),
        render s.headline = Except.error e →
        publishAll render publish (s :: rest) = Except.error e) :=
  ⟨fun _ render publish aOf stories h =>
      publishAll_render_ok render publish aOf stories h,
    fun _ render publish s rest e h =>
      publishAll_render_err render publish s rest e h⟩

/-- C1 witness: at concrete inputs, a failing publisher leaves both items
processed with their failures recorded, and a failing renderer aborts. -/
theorem c1_witness :
    publishAll okRender failPublish [sampleStory1, sampleStory2] =
      Except.ok ([sampleStory1, sampleStory2].map fun s =>
        (s, s.headline, failPublish s s.headline)) ∧
    publishAll boomRender okPublish [sampleStory1] =
      Except.error "render failed" :=
  ⟨c1_publish_isolated_render_fatal.1 String okRender failPublish
      (fun s => s.headline) [sampleStory1, sampleStory2] (fun _ _ => rfl),
    c1_publish_isolated_render_fatal.2 String boomRender okPublish
      sampleStory1 [] "render failed" rfl⟩

/-- C2, counterexample.  The claim says surviving items have their display
text rewritten by the configured postprocess rules, with rule list
foo→bar, bar→baz, baz→qux turning "foo" into "qux".  The code has no
postprocess stage at all (`Config` in src/main.rs lines 16-20 has no rule
field): on the concrete cycle below a story fetched with headline "foo"
reaches the renderer and publisher with headline "foo", not "qux". -/
theorem c2_counterexample :
    (runCycle okRender okPublish [] [Except.ok (some ⟨"id1", "foo", "u1"⟩)]).published =
      Except.ok [(⟨"id1", "foo", "u1"⟩, "foo", Except.ok "post")] ∧
    "foo" ≠ "qux" := by
  exact ⟨rfl, by decide⟩

/-- C2, amended: the code applies no postprocessing — every published item is
one of the fetched stories unchanged (so its display text is whatever the
source produced), and the text handed to the renderer is exactly the item's
original headline. -/
theorem c2_no_postprocessing :
    (∀ (α : Type) (render : String → Except String α)
        (publish : NewsStory → α → Except String String)
        (seen : List String) (results : List FetchResult)
        (l : List (NewsStory × α × Except String String)),
        (runCycle render publish seen results).published = Except.ok l →
        ∀ x ∈ l, x.1 ∈ (collectStories results).1) ∧
    (∀ (publish : NewsStory → String → Except String String)
        (seen : List String) (results : List FetchResult)
        (l : List (NewsStory × String × Except String String)),
        (runCycle okRender publish seen results).published = Except.ok l →
        ∀ x ∈ l, x.2.1 = x.1.headline) := by
  constructor
  · intro α render publish seen results l h x hx
    have h' : publishPhase render publish
        (dedupFilter seen (collectStories results).1).1 = Except.ok l := h
    have hmap := publishPhase_ok_stories h'
    have hx1 : x.1 ∈ (dedupFilter seen (collectStories results).1).1 := by
      rw [← hmap]
      exact List.mem_map_of_mem _ hx
    exact dedup_kept_sub _ _ hx1
  · intro publish seen results l h x hx
    have h' : publishPhase okRender publish
        (dedupFilter seen (collectStories results).1).1 = Except.ok l := h
    have := (publishPhase_ok_elim h' x hx).1
    simpa [okRender, eq_comm] using this

/-- C2 witness: on a concrete cycle the published item is the fetched story
and the rendered text is its original headline. -/
theorem c2_witness :
    sampleStory1 ∈ (collectStories [Except.ok (some sampleStory1)]).1 ∧
    "h1" = sampleStory1.headline := by
  have h : (runCycle okRender okPublish [] [Except.ok (some sampleStory1)]).published =
      Except.ok [(sampleStory1, "h1", Except.ok "post")] := rfl
  exact ⟨c2_no_postprocessing.1 String okRender okPublish [] _ _ h
      (sampleStory1, "h1", Except.ok "post") (List.mem_singleton.mpr rfl),
    c2_no_postprocessing.2 okPublish [] _ _ h
      (sampleStory1, "h1", Except.ok "post") (List.mem_singleton.mpr rfl)⟩

/-- C3: the first dedup check for a key keeps the story and inserts the key;
any later check for the same key (same cycle via the threaded seen set, or a
later cycle) drops the story.  Scenario A: keys u1, u2 in cycle 1 are both
published; the same keys in cycle 2 yield zero publishes. -/
theorem c3_dedup_first_new_then_dropped :
    (∀ (seen : List String) (s : NewsStory) (rest : List NewsStory),
        s.story_url ∉ seen →
        (dedupFilter seen (s :: rest)).1 =
          s :: (dedupFilter (s.story_url :: seen) rest).1 ∧
        s.story_url ∈ (dedupFilter seen (s :: rest)).2) ∧
    (∀ (seen : List String) (s : NewsStory) (rest : List NewsStory),
        s.story_url ∈ seen →
        dedupFilter seen (s :: rest) = dedupFilter seen rest) ∧
    ((runCycle okRender okPublish [] cycleAfetch).published =
        Except.ok [(sampleStory1, "h1", Except.ok "post"),
          (sampleStory2, "h2", Except.ok "post")] ∧
      (runCycle okRender okPublish
          (runCycle okRender okPublish [] cycleAfetch).seenAfter
          cycleAfetch).published = Except.ok []) := by
  refine ⟨?_, ?_, rfl, rfl⟩
  · intro seen s rest h
    rw [dedup_cons_not_mem h]
    exact ⟨rfl, dedup_seen_mono rest (s.story_url :: seen)
      (List.mem_cons_self _ _)⟩
  · intro seen s rest h
    exact dedup_cons_mem h rest

/-- C3 witness: first check for key u1 keeps the story and records the key. -/
theorem c3_witness :
    (dedupFilter [] [sampleStory1]).1 =
      sampleStory1 :: (dedupFilter [sampleStory1.story_url] []).1 ∧
    sampleStory1.story_url ∈ (dedupFilter [] [sampleStory1]).2 :=
  c3_dedup_first_new_then_dropped.1 [] sampleStory1 [] (by decide)

/-- C4: in every state the fan-out of src/main.rs lines 147-152
(`buffer_unordered(fanoutLimit)`, `fanoutLimit = 2`) can reach during a
cycle, at most 2 fetches are in flight; and when the stream is drained (the
cycle `collect`s it to completion: nothing queued, nothing in flight) exactly
N fetch attempts were started and completed, regardless of the completion
order the `finish` rule chose. -/
theorem c4_bounded_fanout {sources : List NewsSource} {s : FanoutState NewsSource}
    (h : FanoutReachable fanoutLimit sources s) :
    s.inflight.length ≤ 2 ∧
      (s.queued = [] → s.inflight = [] →
        s.started = sources.length ∧ s.completed = sources.length) := by
  have hinv := fanout_inv h
  refine ⟨hinv.1, ?_⟩
  intro hq hi
  have hql : s.queued.length = 0 := by rw [hq]; rfl
  have hil : s.inflight.length = 0 := by rw [hi]; rfl
  omega

/-- C5: a fetch failure is logged and contributes nothing to the cycle, never
affecting the stories the other sources contribute; in Scenario C (source A
fails with a network error, source B returns key u3) the cycle's final list
is exactly the u3 story, which is rendered and published, and the network
error is the one logged fetch error. -/
theorem c5_fetch_failure_isolated :
    (∀ (e : String) (rest : List FetchResult),
        collectStories (Except.error e :: rest) =
          ((collectStories rest).1, e :: (collectStories rest).2)) ∧
    ((collectStories scenarioCfetch).1 = [sampleStory3] ∧
      (collectStories scenarioCfetch).2 = ["network error"] ∧
      (runCycle okRender okPublish [] scenarioCfetch).published =
        Except.ok [(sampleStory3, "h3", Except.ok "post")]) :=
  ⟨collect_err, rfl, rfl, rfl⟩

def srcA : NewsSource := NewsSource.BBC "https://example.org/a"

def srcB : NewsSource := NewsSource.BBC "https://example.org/b"

/-- C4 witness: a concrete drained run over two sources — admit both (the
limit 2 is never exceeded), then complete them in reverse order — starts and
completes exactly 2 fetch attempts. -/
theorem c4_witness :
    (FanoutState.mk ([] : List NewsSource) [] 2 2).inflight.length ≤ 2 ∧
      ((FanoutState.mk ([] : List NewsSource) [] 2 2).started =
          [srcA, srcB].length ∧
        (FanoutState.mk ([] : List NewsSource) [] 2 2).completed =
          [srcA, srcB].length) := by
  have h0 : FanoutReachable fanoutLimit [srcA, srcB] (fanoutInit [srcA, srcB]) :=
    FanoutReachable.init
  have h1 : FanoutReachable fanoutLimit [srcA, srcB]
      (FanoutState.mk [srcB] [srcA] 1 0) :=
    FanoutReachable.step h0
      (FanoutStep.start (fanoutInit [srcA, srcB]) srcA [srcB] rfl (by decide))
  have h2 : FanoutReachable fanoutLimit [srcA, srcB]
      (FanoutState.mk [] [srcB, srcA] 2 0) :=
    FanoutReachable.step h1
      (FanoutStep.start (FanoutState.mk [srcB] [srcA] 1 0) srcB [] rfl (by decide))
  have h3 : FanoutReachable fanoutLimit [srcA, srcB]
      (FanoutState.mk [] [srcA] 2 1) :=
    FanoutReachable.step h2
      (FanoutStep.finish (FanoutState.mk [] [srcB, srcA] 2 0) srcB [] [srcA] rfl)
  have h4 : FanoutReachable fanoutLimit [srcA, srcB]
      (FanoutState.mk [] [] 2 2) :=
    FanoutReachable.step h3
      (FanoutStep.finish (FanoutState.mk [] [srcA] 2 1) srcA [] [] rfl)
  exact ⟨(c4_bounded_fanout h4).1, (c4_bounded_fanout h4).2 rfl rfl⟩

/-- C6: the seen set only ever grows — every dedup call's output set contains
its input set, an accepted story's key is recorded, a key already in the set
is never accepted, the whole-process loop only extends the set, and a key
accepted in one dedup pass is never accepted in any later pass over the set
that pass produced. -/
theorem c6_seen_monotone :
    (∀ (seen : List String) (l : List NewsStory), seen ⊆ (dedupFilter seen l).2) ∧
    (∀ (seen : List String) (l : List NewsStory) (s : NewsStory),
        s ∈ (dedupFilter seen l).1 → s.story_url ∈ (dedupFilter seen l).2) ∧
    (∀ (seen : List String) (l : List NewsStory) (s : NewsStory),
        s.story_url ∈ seen → s ∉ (dedupFilter seen l).1) ∧
    (∀ (α : Type) (render : String → Except String α)
        (publish : NewsStory → α → Except String String)
        (f : Nat → List FetchResult) (n i : Nat) (seen fin : List String)
        (pubs : List (List (NewsStory × α × Except String String))),
        runCyclesFrom render publish f i n seen = Except.ok (fin, pubs) →
        seen ⊆ fin) ∧
    (∀ (seen : List String) (l₁ l₂ : List NewsStory) (s t : NewsStory),
        s ∈ (dedupFilter seen l₁).1 → t.story_url = s.story_url →
        t ∉ (dedupFilter (dedupFilter seen l₁).2 l₂).1) := by
  refine ⟨fun seen l => dedup_seen_mono l seen,
    fun seen l => dedup_kept_url_in_after l seen,
    fun seen l s h hk => dedup_kept_fresh l seen s hk h,
    fun _ _ _ f n i seen fin pubs h => runCyclesFrom_seen_mono n i seen fin pubs h,
    ?_⟩
  intro seen l₁ l₂ s t hs ht hk
  exact dedup_kept_fresh l₂ _ t hk
    (ht ▸ dedup_kept_url_in_after l₁ seen s hs)

/-- C6 witness: concrete instances — the input set survives a dedup pass, an
accepted key is recorded, a seen key is dropped, a loop run extends the set,
and a key accepted in one pass is dropped by the next. -/
theorem c6_witness :
    (["u1"] ⊆ (dedupFilter ["u1"] [sampleStory2]).2) ∧
    (sampleStory1.story_url ∈ (dedupFilter [] [sampleStory1]).2) ∧
    (sampleStory1 ∉ (dedupFilter ["u1"] [sampleStory1]).1) ∧
    (["u1"] ⊆ (["u1"] : List String)) ∧
    (sampleStory1 ∉
      (dedupFilter (dedupFilter [] [sampleStory1]).2 [sampleStory1]).1) :=
  ⟨c6_seen_monotone.1 ["u1"] [sampleStory2],
    c6_seen_monotone.2.1 [] [sampleStory1] sampleStory1 (by decide),
    c6_seen_monotone.2.2.1 ["u1"] [sampleStory1] sampleStory1 (by decide),
    c6_seen_monotone.2.2.2.1 String okRender okPublish (fun _ => []) 1 0
      ["u1"] ["u1"] [[]] rfl,
    c6_seen_monotone.2.2.2.2 [] [sampleStory1] [sampleStory1]
      sampleStory1 sampleStory1 (by decide) rfl⟩

def cfgA : Config := ⟨⟨⟨0, 0, 100, 50⟩, 32, "template.png"⟩, []⟩

def cfgB : Config := ⟨⟨⟨0, 0, 100, 50⟩, 32, "template.png"⟩, [srcA]⟩

/-- C7, counterexample.  The claim says the inter-cycle sleep duration is
supplied by the configuration.  In src/main.rs line 231 the duration is the
hard-coded literal `Duration::from_secs(30)`: two configurations that differ
(here in their source lists) yield the same 30-second sleep, and `Config`
(src/main.rs lines 16-20) has no interval field at all. -/
theorem c7_counterexample :
    cycleSleepSecs cfgA = 30 ∧ cycleSleepSecs cfgB = 30 ∧ cfgA ≠ cfgB :=
  ⟨rfl, rfl, by decide⟩

/-- C7, amended: the inter-cycle sleep is the hard-coded constant 30 seconds,
the same for every loaded configuration; it is not configurable. -/
theorem c7_sleep_hardcoded :
    ∀ cfg cfg' : Config,
      cycleSleepSecs cfg = 30 ∧ cycleSleepSecs cfg = cycleSleepSecs cfg' :=
  fun _ _ => ⟨rfl, rfl⟩

/-- C8: when every configured source fails its fetch in every cycle, the loop
never errors out — each of the `n` cycles completes with an empty publish
record, the seen set is untouched, and the run proceeds through all `n`
cycles (sleeping between them) rather than terminating. -/
theorem c8_all_fail_keeps_running {α : Type} (render : String → Except String α)
    (publish : NewsStory → α → Except String String) (f : Nat → List FetchResult)
    (hf : ∀ j, ∀ r ∈ f j, ∃ e, r = Except.error e) :
    ∀ n i : Nat, ∀ seen : List String,
      runCyclesFrom render publish f i n seen =
        Except.ok (seen, List.replicate n []) := by
  intro n
  induction n with
  | zero => intro i seen; rfl
  | succ m ih =>
    intro i seen
    have hc : (collectStories (f i)).1 = [] := collect_all_err _ (hf i)
    have hpub : (runCycle render publish seen (f i)).published = Except.ok [] := by
      show publishPhase render publish
        (dedupFilter seen (collectStories (f i)).1).1 = Except.ok []
      rw [hc]
      rfl
    have hseen : (runCycle render publish seen (f i)).seenAfter = seen := by
      rw [runCycle_seenAfter, hc]
      rfl
    show (match (runCycle render publish seen (f i)).published with
      | Except.error e => Except.error e
      | Except.ok pubs =>
        match runCyclesFrom render publish f (i + 1) m
            (runCycle render publish seen (f i)).seenAfter with
        | Except.error e => Except.error e
        | Except.ok r => Except.ok (r.1, pubs :: r.2)) =
      Except.ok (seen, List.replicate (m + 1) [])
    rw [hpub, hseen, ih (i + 1) seen]
    rfl

/-- C8 witness: three cycles whose single source always fails leave the seen
set empty, publish nothing, and still complete all three cycles. -/
theorem c8_witness :
    runCyclesFrom okRender okPublish (fun _ => [Except.error "network error"])
      0 3 [] = Except.ok ([], List.replicate 3 []) :=
  c8_all_fail_keeps_running okRender okPublish
    (fun _ => [Except.error "network error"])
    (fun _ r hr => ⟨"network error", by simpa using hr⟩) 3 0 []

/-- C9: the seen set a cycle hands to the next is fixed by the dedup filter
alone, before and independently of any render or publish outcome; every
accepted story's key is in it; and once a key is in the seen set, no item
with that key is ever part of a later cycle's publish output — even if the
item's own publish attempt failed. -/
theorem c9_inserted_before_publish :
    (∀ (α : Type) (render : String → Except String α)
        (publish : NewsStory → α → Except String String)
        (seen : List String) (results : List FetchResult),
        (runCycle render publish seen results).seenAfter =
          (dedupFilter seen (collectStories results).1).2) ∧
    (∀ (seen : List String) (stories : List NewsStory) (s : NewsStory),
        s ∈ (dedupFilter seen stories).1 →
        s.story_url ∈ (dedupFilter seen stories).2) ∧
    (∀ (α : Type) (render : String → Except String α)
        (publish : NewsStory → α → Except String String)
        (seen : List String) (results : List FetchResult)
        (l : List (NewsStory × α × Except String String)) (u : String),
        u ∈ seen →
        (runCycle render publish seen results).published = Except.ok l →
        ∀ x ∈ l, x.1.story_url ≠ u) := by
  refine ⟨fun _ _ _ _ _ => rfl, fun seen stories => dedup_kept_url_in_after stories seen, ?_⟩
  intro α render publish seen results l u hu h x hx heq
  have h' : publishPhase render publish
      (dedupFilter seen (collectStories results).1).1 = Except.ok l := h
  have hmap := publishPhase_ok_stories h'
  have hx1 : x.1 ∈ (dedupFilter seen (collectStories results).1).1 := by
    rw [← hmap]
    exact List.mem_map_of_mem _ hx
  exact dedup_kept_fresh _ _ _ hx1 (heq ▸ hu)

/-- C9 witness: a concrete accepted key is recorded at dedup time, and a
cycle started with u1 already seen publishes no item keyed u1. -/
theorem c9_witness :
    sampleStory1.story_url ∈ (dedupFilter [] [sampleStory1]).2 ∧
    sampleStory2.story_url ≠ "u1" :=
  ⟨c9_inserted_before_publish.2.1 [] [sampleStory1] sampleStory1 (by decide),
    c9_inserted_before_publish.2.2 String okRender okPublish ["u1"]
      [Except.ok (some sampleStory2)] [(sampleStory2, "h2", Except.ok "post")]
      "u1" (by decide) rfl (sampleStory2, "h2", Except.ok "post")
      (List.mem_singleton.mpr rfl)⟩

/-- C10: for a BBC response that deserializes, an `asset` field that is the
empty object or null yields `Ok(None)`; a present asset yields
`Ok(Some(story))` with id `"BBC_" ++ assetId`, url
`"https://bbc.co.uk" ++ assetUri`, and the headline unchanged. -/
theorem c10_bbc_mapping :
    (∀ (fs : List (String × Json)) (aj : Json),
        lookupField fs "asset" = some aj →
        (aj = Json.obj [] ∨ aj = Json.null) →
        parseBBCApiResponse (Json.obj fs) = Except.ok ⟨none⟩ ∧
          request_news_source ⟨none⟩ = Except.ok none) ∧
    (∀ asset : BBCApiResponseAsset,
        request_news_source ⟨some asset⟩ =
          Except.ok (some ⟨"BBC_" ++ asset.asset_id, asset.headline,
            "https://bbc.co.uk" ++ asset.asset_uri⟩)) := by
  constructor
  · intro fs aj hlook hshape
    refine ⟨?_, rfl⟩
    have hempty : object_empty_as_none aj = Except.ok none := by
      rcases hshape with h | h <;> subst h <;> rfl
    simp only [parseBBCApiResponse, hlook, hempty]
  · intro asset
    rfl

def bbcEmptyAssetFields : List (String × Json) :=
  [("isError", Json.bool false), ("pollPeriod", Json.num 30000),
    ("asset", Json.obj [])]

/-- C10 witness: the repository's own test payloads — an empty `asset` object
yields no story, and the asset `1337` maps to id `BBC_1337`, url
`https://bbc.co.uk/news/uk-1337`, headline `Hello World`. -/
theorem c10_witness :
    (parseBBCApiResponse (Json.obj bbcEmptyAssetFields) = Except.ok ⟨none⟩ ∧
      request_news_source ⟨none⟩ = Except.ok none) ∧
    request_news_source ⟨some ⟨"1337", "/news/uk-1337", "Hello World"⟩⟩ =
      Except.ok (some ⟨"BBC_1337", "Hello World",
        "https://bbc.co.uk/news/uk-1337"⟩) := by
  refine ⟨c10_bbc_mapping.1 bbcEmptyAssetFields (Json.obj []) rfl (Or.inl rfl), ?_⟩
  have h := c10_bbc_mapping.2 ⟨"1337", "/news/uk-1337", "Hello World"⟩
  exact h.trans (by decide)

end DestielBot
